import Mathlib

/-!
Verification development for the extraction and simplification engine of a
design-document MCP server (grid-context resolver, global-variable store,
global-style batch extraction).

The definitions below are a shallow embedding of the TypeScript sources:
  - src/extractors/grid-extractor.ts   (findOrCreateVar, findNodeById,
    findParentArtboardWithGrid, createGridContext,
    createGridExtractorWithContext, gridCache)
  - src/extractors/global-styles.ts    (extractGlobalStyles and its helpers)
  - src/extractors/types.ts            (SimplifiedNode, TraversalContext, ...)
  - src/tests/grid-extractor.test.ts   (findAllNodes and the target lookup)

JavaScript values are embedded as follows: objects/arrays that flow through
the global-variable store are an inductive JSON value type (object keys kept
in insertion order, as JSON.stringify observes them); machine floats that the
claims never compute with are embedded as rationals; fallible remote calls
are oracles returning Except; the process-wide grid cache and the mutable
store are threaded explicitly as state.  Functions that the source performs
by mutation are embedded as functions returning the updated value.
-/

/-- JSON-representable value, the payload type of the global-variable store
(`GlobalVars.styles` values in src/extractors/types.ts).  Object fields are
kept in insertion order, which is exactly the order `JSON.stringify`
serializes them in, so structural equality of this type coincides with
equality of canonical `JSON.stringify` serializations. -/
inductive Json where
  | null : Json
  | bool (b : Bool) : Json
  | num (n : Int) : Json
  | str (s : String) : Json
  | arr (elems : List Json) : Json
  | obj (fields : List (String × Json)) : Json

mutual

/-- Structural comparison of two JSON values; this embeds the
canonical-serialization comparison `JSON.stringify(a) === JSON.stringify(b)`
of the source (grid-extractor.ts line 17), which on JSON values with ordered
keys is structural equality. -/
def Json.beq : Json → Json → Bool
  | .null, .null => true
  | .bool x, .bool y => x == y
  | .num x, .num y => x == y
  | .str x, .str y => x == y
  | .arr x, .arr y => Json.beqList x y
  | .obj x, .obj y => Json.beqObj x y
  | _, _ => false
termination_by a _ => sizeOf a

/-- Elementwise comparison of JSON arrays. -/
def Json.beqList : List Json → List Json → Bool
  | [], [] => true
  | x :: xs, y :: ys => Json.beq x y && Json.beqList xs ys
  | _, _ => false
termination_by x _ => sizeOf x

/-- Fieldwise comparison of JSON objects (keys in insertion order). -/
def Json.beqObj : List (String × Json) → List (String × Json) → Bool
  | [], [] => true
  | (j, x) :: xs, (k, y) :: ys => j == k && Json.beq x y && Json.beqObj xs ys
  | _, _ => false
termination_by x _ => sizeOf x

end

theorem beq_iff_eq_aux (f : Nat) :
    (∀ a b : Json, sizeOf a ≤ f → (Json.beq a b = true ↔ a = b)) ∧
    (∀ x y : List Json, sizeOf x ≤ f → (Json.beqList x y = true ↔ x = y)) ∧
    (∀ x y : List (String × Json), sizeOf x ≤ f → (Json.beqObj x y = true ↔ x = y)) := by
  induction f with
  | zero =>
    refine ⟨?_, ?_, ?_⟩
    · intro a b ha; cases a <;> simp_arith at ha
    · intro x y hx; cases x <;> cases y <;> simp [Json.beqList] <;> simp_arith at hx
    · intro x y hx; cases x <;> cases y <;> simp [Json.beqObj] <;> simp_arith at hx
  | succ f ih =>
    obtain ⟨ihv, ihl, iho⟩ := ih
    refine ⟨?_, ?_, ?_⟩
    · intro a b ha
      cases a <;> cases b
      all_goals try (simp [Json.beq]; done)
      · rename_i x y
        have hx : sizeOf x ≤ f := by simp_arith at ha; omega
        simpa [Json.beq] using ihl x y hx
      · rename_i x y
        have hx : sizeOf x ≤ f := by simp_arith at ha; omega
        simpa [Json.beq] using iho x y hx
    · intro x y hx
      cases x with
      | nil => cases y <;> simp [Json.beqList]
      | cons hd tl =>
        cases y with
        | nil => simp [Json.beqList]
        | cons hd2 tl2 =>
          have h1 : sizeOf hd ≤ f := by simp_arith at hx; omega
          have h2 : sizeOf tl ≤ f := by simp_arith at hx; omega
          simp [Json.beqList, ihv hd hd2 h1, ihl tl tl2 h2]
    · intro x y hx
      cases x with
      | nil => cases y <;> simp [Json.beqObj]
      | cons hd tl =>
        cases y with
        | nil => simp [Json.beqObj]
        | cons hd2 tl2 =>
          obtain ⟨j, v⟩ := hd
          obtain ⟨k, w⟩ := hd2
          have h1 : sizeOf v ≤ f := by simp_arith at hx; omega
          have h2 : sizeOf tl ≤ f := by simp_arith at hx; omega
          simp only [Json.beqObj, Bool.and_eq_true, beq_iff_eq, List.cons.injEq,
            Prod.mk.injEq, ihv v w h1, iho tl tl2 h2]

theorem Json.beq_iff_eq (a b : Json) : Json.beq a b = true ↔ a = b :=
  (beq_iff_eq_aux (sizeOf a)).1 a b (Nat.le_refl _)

instance : BEq Json := ⟨Json.beq⟩

instance : LawfulBEq Json where
  eq_of_beq h := (Json.beq_iff_eq _ _).mp h
  rfl := (Json.beq_iff_eq _ _).mpr rfl

/-- Decimal digit character. Only applied to arguments below 10. -/
def digitChar : Nat → Char
  | 0 => '0'
  | 1 => '1'
  | 2 => '2'
  | 3 => '3'
  | 4 => '4'
  | 5 => '5'
  | 6 => '6'
  | 7 => '7'
  | 8 => '8'
  | _ => '9'

/-- Decimal digit list of a positive number, most significant first; `fuel`
only makes the recursion structural (`n <= fuel` is always sufficient). -/
def natDigitsAux : Nat → Nat → List Char
  | _, 0 => []
  | 0, _ + 1 => []
  | fuel + 1, n + 1 => natDigitsAux fuel ((n + 1) / 10) ++ [digitChar ((n + 1) % 10)]

/-- Decimal string of a natural number. -/
def natRepr (n : Nat) : String := if n = 0 then "0" else String.mk (natDigitsAux n n)

/-- Modelled from the spec: `generateVarId` (src/utils/common.ts, missing
from src/) mints a fresh id from the kind prefix and "a monotonically
increasing counter" (spec section 4.3); the caller passes the store's
current counter value. -/
def generateVarId (kind : String) (counter : Nat) : String :=
  kind ++ "_" ++ natRepr counter

theorem digitChar_inj (a b : Nat) (ha : a < 10) (hb : b < 10)
    (h : digitChar a = digitChar b) : a = b := by
  interval_cases a <;> interval_cases b <;> first | rfl | (exact absurd h (by decide))

theorem digitChar_ne_underscore (a : Nat) (ha : a < 10) : digitChar a ≠ '_' := by
  interval_cases a <;> decide

theorem natDigitsAux_fuel (f1 f2 n : Nat) (h1 : n ≤ f1) (h2 : n ≤ f2) :
    natDigitsAux f1 n = natDigitsAux f2 n := by
  induction f1 generalizing f2 n with
  | zero =>
    interval_cases n
    cases f2 <;> rfl
  | succ f ih =>
    cases n with
    | zero => cases f2 <;> rfl
    | succ m =>
      cases f2 with
      | zero => omega
      | succ f2' =>
        simp only [natDigitsAux]
        congr 1
        exact ih _ _ (by omega) (by omega)

theorem natDigitsAux_ne_nil (f n : Nat) (hn : 0 < n) (hf : n ≤ f) :
    natDigitsAux f n ≠ [] := by
  cases f with
  | zero => omega
  | succ f' =>
    cases n with
    | zero => omega
    | succ m => simp [natDigitsAux]

theorem mem_natDigitsAux_lt (f n : Nat) (c : Char) (h : c ∈ natDigitsAux f n) :
    ∃ d, d < 10 ∧ c = digitChar d := by
  induction f generalizing n with
  | zero =>
    cases n with
    | zero => simp [natDigitsAux] at h
    | succ m => simp [natDigitsAux] at h
  | succ f ih =>
    cases n with
    | zero => simp [natDigitsAux] at h
    | succ m =>
      simp only [natDigitsAux, List.mem_append, List.mem_singleton] at h
      rcases h with h | rfl
      · exact ih _ h
      · exact ⟨(m + 1) % 10, Nat.mod_lt _ (by omega), rfl⟩

theorem underscore_not_mem_natRepr (n : Nat) : '_' ∉ (natRepr n).data := by
  unfold natRepr
  split
  · decide
  · intro hmem
    obtain ⟨d, hd, hc⟩ := mem_natDigitsAux_lt n n '_' hmem
    exact digitChar_ne_underscore d hd hc.symm

theorem natDigitsAux_inj (f1 : Nat) :
    ∀ f2 m n : Nat, m ≤ f1 → n ≤ f2 → 0 < m → 0 < n →
      natDigitsAux f1 m = natDigitsAux f2 n → m = n := by
  induction f1 with
  | zero => intro f2 m n h1 _ hm _ _; omega
  | succ f ih =>
    intro f2 m n h1 h2 hm hn heq
    cases f2 with
    | zero => omega
    | succ f2' =>
      obtain ⟨m', rfl⟩ : ∃ m', m = m' + 1 := ⟨m - 1, by omega⟩
      obtain ⟨n', rfl⟩ : ∃ n', n = n' + 1 := ⟨n - 1, by omega⟩
      simp only [natDigitsAux] at heq
      have hlast := List.append_inj_right heq (by
        have hl := congrArg List.length heq
        simp at hl
        omega)
      have hpre : natDigitsAux f ((m' + 1) / 10) = natDigitsAux f2' ((n' + 1) / 10) :=
        List.append_inj_left heq (by
          have hl := congrArg List.length heq
          simp at hl
          omega)
      have hdig : (m' + 1) % 10 = (n' + 1) % 10 := by
        apply digitChar_inj _ _ (Nat.mod_lt _ (by omega)) (Nat.mod_lt _ (by omega))
        simpa using hlast
      have hdivf1 : (m' + 1) / 10 ≤ f := by
        have := Nat.div_lt_self (by omega : 0 < m' + 1) (by omega : 1 < 10)
        omega
      have hdivf2 : (n' + 1) / 10 ≤ f2' := by
        have := Nat.div_lt_self (by omega : 0 < n' + 1) (by omega : 1 < 10)
        omega
      rcases Nat.eq_zero_or_pos ((m' + 1) / 10) with hz1 | hp1
      · rcases Nat.eq_zero_or_pos ((n' + 1) / 10) with hz2 | hp2
        · have e1 := Nat.div_add_mod (m' + 1) 10
          have e2 := Nat.div_add_mod (n' + 1) 10
          omega
        · exfalso
          rw [hz1] at hpre
          exact natDigitsAux_ne_nil f2' _ hp2 hdivf2 (by simpa [natDigitsAux] using hpre.symm)
      · rcases Nat.eq_zero_or_pos ((n' + 1) / 10) with hz2 | hp2
        · exfalso
          rw [hz2] at hpre
          exact natDigitsAux_ne_nil f _ hp1 hdivf1 (by simpa [natDigitsAux] using hpre)
        · have hdiv := ih f2' _ _ hdivf1 hdivf2 hp1 hp2 hpre
          have e1 := Nat.div_add_mod (m' + 1) 10
          have e2 := Nat.div_add_mod (n' + 1) 10
          omega

theorem natDigitsAux_not_single_zero (n : Nat) (hn : 0 < n) :
    natDigitsAux n n ≠ ['0'] := by
  intro hd
  obtain ⟨m, rfl⟩ : ∃ m, n = m + 1 := ⟨n - 1, by omega⟩
  simp only [natDigitsAux] at hd
  have hnil : natDigitsAux m ((m + 1) / 10) = [] := by
    cases hx : natDigitsAux m ((m + 1) / 10) with
    | nil => rfl
    | cons a as =>
      rw [hx] at hd
      have := congrArg List.length hd
      simp at this
  rw [hnil] at hd
  simp at hd
  have hmod : (m + 1) % 10 = 0 := by
    apply digitChar_inj _ _ (Nat.mod_lt _ (by omega)) (by omega)
    exact hd.trans rfl
  have hdiv0 : (m + 1) / 10 = 0 := by
    by_contra hpos
    exact natDigitsAux_ne_nil m _ (by omega)
      (by have := Nat.div_lt_self (by omega : 0 < m + 1) (by omega : 1 < 10); omega) hnil
  have := Nat.div_add_mod (m + 1) 10
  omega

theorem natRepr_inj (m n : Nat) (h : natRepr m = natRepr n) : m = n := by
  unfold natRepr at h
  by_cases hm : m = 0 <;> by_cases hn : n = 0
  · omega
  · exfalso
    rw [if_pos hm, if_neg hn] at h
    have hdata : (['0'] : List Char) = natDigitsAux n n := congrArg String.data h
    exact natDigitsAux_not_single_zero n (by omega) hdata.symm
  · exfalso
    rw [if_neg hm, if_pos hn] at h
    have hdata : natDigitsAux m m = (['0'] : List Char) := congrArg String.data h
    exact natDigitsAux_not_single_zero m (by omega) hdata
  · rw [if_neg hm, if_neg hn] at h
    have hdata : natDigitsAux m m = natDigitsAux n n := congrArg String.data h
    exact natDigitsAux_inj m n m n (Nat.le_refl _) (Nat.le_refl _) (by omega) (by omega) hdata

theorem sep_first_inj (c : Char) :
    ∀ (x1 x2 y1 y2 : List Char), c ∉ x1 → c ∉ x2 →
      x1 ++ c :: y1 = x2 ++ c :: y2 → x1 = x2 ∧ y1 = y2 := by
  intro x1
  induction x1 with
  | nil =>
    intro x2 y1 y2 _ h2 heq
    cases x2 with
    | nil => simpa using heq
    | cons d x2' =>
      rw [List.nil_append, List.cons_append] at heq
      injection heq with ha hb
      exact absurd (ha ▸ List.mem_cons_self d x2') h2
  | cons a x1' ih =>
    intro x2 y1 y2 h1 h2 heq
    cases x2 with
    | nil =>
      rw [List.cons_append, List.nil_append] at heq
      injection heq with ha hb
      exact absurd (ha ▸ List.mem_cons_self a x1') h1
    | cons b x2' =>
      rw [List.cons_append, List.cons_append] at heq
      injection heq with ha hb
      subst ha
      obtain ⟨hx, hy⟩ := ih x2' y1 y2 (fun hc => h1 (List.mem_cons_of_mem _ hc))
        (fun hc => h2 (List.mem_cons_of_mem _ hc)) hb
      exact ⟨by rw [hx], hy⟩

theorem sep_last_inj (c : Char) (x1 x2 y1 y2 : List Char) (hy1 : c ∉ y1) (hy2 : c ∉ y2)
    (heq : x1 ++ c :: y1 = x2 ++ c :: y2) : y1 = y2 := by
  have hrev := congrArg List.reverse heq
  simp only [List.reverse_append, List.reverse_cons, List.append_assoc,
    List.singleton_append] at hrev
  have := (sep_first_inj c y1.reverse y2.reverse x1.reverse x2.reverse
    (by simpa using hy1) (by simpa using hy2) hrev).1
  exact List.reverse_injective this

theorem generateVarId_counter_inj (k1 k2 : String) (n1 n2 : Nat)
    (h : generateVarId k1 n1 = generateVarId k2 n2) : n1 = n2 := by
  unfold generateVarId at h
  have hdata : k1.data ++ '_' :: (natRepr n1).data = k2.data ++ '_' :: (natRepr n2).data := by
    have := congrArg String.data h
    simpa [String.data_append] using this
  have hrep : (natRepr n1).data = (natRepr n2).data :=
    sep_last_inj '_' k1.data k2.data _ _ (underscore_not_mem_natRepr n1)
      (underscore_not_mem_natRepr n2) hdata
  exact natRepr_inj _ _ (congrArg String.mk hrep)

/-- Global-variable store (GlobalVars of src/extractors/types.ts), plus the
counter backing the spec-modelled `generateVarId`.  The styles record is an
association list in insertion order, which is the order `Object.entries`
iterates in. -/
structure GlobalVarsT where
  styles : List (String × Json)
  counter : Nat

/-- Translation of `findOrCreateVar` (grid-extractor.ts lines 13-28): scan
the existing entries in insertion order for one whose canonical
serialization matches the value; return its id on a hit, otherwise mint a
new id with `generateVarId` and insert the value under it. -/
def findOrCreateVar (globalVars : GlobalVarsT) (value : Json) (kind : String) :
    String × GlobalVarsT :=
  match globalVars.styles.find? (fun p => p.2 == value) with
  | some p => (p.1, globalVars)
  | none =>
    let varId := generateVarId kind globalVars.counter
    (varId, { styles := globalVars.styles ++ [(varId, value)],
              counter := globalVars.counter + 1 })

/-- Stores reachable within one extraction run: every id was minted by
`generateVarId` at some earlier counter value, and ids never repeat. -/
def WFStore (gv : GlobalVarsT) : Prop :=
  (∀ p ∈ gv.styles, ∃ k n, n < gv.counter ∧ p.1 = generateVarId k n) ∧
  (gv.styles.map Prod.fst).Nodup

theorem WFStore_empty : WFStore ⟨[], 0⟩ := by
  constructor
  · intro p hp; cases hp
  · exact List.nodup_nil

theorem find?_append_none {α : Type} (p : α → Bool) (l1 l2 : List α)
    (h : l1.find? p = none) : (l1 ++ l2).find? p = l2.find? p := by
  induction l1 with
  | nil => rfl
  | cons a l ih =>
    cases hpa : p a with
    | true => simp [List.find?_cons, hpa] at h
    | false =>
      simp only [List.find?_cons, hpa] at h
      simp only [List.cons_append, List.find?_cons, hpa]
      exact ih h

theorem findOrCreateVar_WF (gv : GlobalVarsT) (hwf : WFStore gv) (v : Json) (k : String) :
    WFStore (findOrCreateVar gv v k).2 := by
  obtain ⟨hkeys, hnd⟩ := hwf
  cases hfind : gv.styles.find? (fun p => p.2 == v) with
  | some p => simpa [findOrCreateVar, hfind] using ⟨hkeys, hnd⟩
  | none =>
    simp only [findOrCreateVar, hfind]
    constructor
    · intro p hp
      rcases List.mem_append.mp hp with hmem | hmem
      · obtain ⟨k', n, hn, hk⟩ := hkeys p hmem
        exact ⟨k', n, by show n < gv.counter + 1; omega, hk⟩
      · rcases List.mem_singleton.mp hmem with rfl
        exact ⟨k, gv.counter, by show gv.counter < gv.counter + 1; omega, rfl⟩
    · rw [List.map_append]
      apply List.Nodup.append hnd (by simp)
      intro a ha hb
      simp only [List.map_cons, List.map_nil, List.mem_singleton] at hb
      subst hb
      obtain ⟨q, hq, hqk⟩ := List.mem_map.mp ha
      obtain ⟨k', n, hn, hk⟩ := hkeys q hq
      rw [hk] at hqk
      have := generateVarId_counter_inj _ _ _ _ hqk
      omega

/-- C1: within one extraction run (any store reachable by minting, i.e.
well-formed), two findOrCreateVar calls with structurally equal values
return the same id and the second call does not grow the styles map; calls
with structurally unequal values return distinct ids; and when no existing
entry matches, a fresh id built from the kind prefix and current counter is
minted, is distinct from every existing id, and the value is inserted under
it. -/
theorem C1_findOrCreateVar_dedup (gv : GlobalVarsT) (hwf : WFStore gv)
    (v1 v2 : Json) (k1 k2 : String) :
    (v1 = v2 →
      (findOrCreateVar (findOrCreateVar gv v1 k1).2 v2 k2).1 = (findOrCreateVar gv v1 k1).1 ∧
      (findOrCreateVar (findOrCreateVar gv v1 k1).2 v2 k2).2.styles.length
        = (findOrCreateVar gv v1 k1).2.styles.length) ∧
    (v1 ≠ v2 →
      (findOrCreateVar (findOrCreateVar gv v1 k1).2 v2 k2).1 ≠ (findOrCreateVar gv v1 k1).1) ∧
    (gv.styles.find? (fun p => p.2 == v1) = none →
      (findOrCreateVar gv v1 k1).1 = generateVarId k1 gv.counter ∧
      ((findOrCreateVar gv v1 k1).1, v1) ∈ (findOrCreateVar gv v1 k1).2.styles ∧
      ∀ q ∈ gv.styles, q.1 ≠ (findOrCreateVar gv v1 k1).1) := by
  obtain ⟨hkeys, hnd⟩ := hwf
  cases hfind : gv.styles.find? (fun p => p.2 == v1) with
  | some p =>
    have hpmem := List.mem_of_find?_eq_some hfind
    have hpval : p.2 = v1 := by
      have := List.find?_some hfind
      simpa using this
    refine ⟨?_, ?_, ?_⟩
    · rintro rfl
      simp [findOrCreateVar, hfind]
    · intro hne
      simp only [findOrCreateVar, hfind]
      cases hfind2 : gv.styles.find? (fun q => q.2 == v2) with
      | some q =>
        have hqmem := List.mem_of_find?_eq_some hfind2
        have hqval : q.2 = v2 := by
          have := List.find?_some hfind2
          simpa using this
        simp only [hfind2]
        intro hk
        have hpq := List.inj_on_of_nodup_map hnd hqmem hpmem hk
        rw [hpq] at hqval
        exact hne (hpval ▸ hqval.symm ▸ rfl)
      | none =>
        simp only [hfind2]
        obtain ⟨k, n, hn, hpk⟩ := hkeys p hpmem
        rw [hpk]
        intro hcontra
        have := generateVarId_counter_inj _ _ _ _ hcontra
        omega
    · intro h0
      simp at h0
  | none =>
    have hid1 : findOrCreateVar gv v1 k1 =
        (generateVarId k1 gv.counter,
          ⟨gv.styles ++ [(generateVarId k1 gv.counter, v1)], gv.counter + 1⟩) := by
      simp [findOrCreateVar, hfind]
    have hfresh : ∀ q ∈ gv.styles, q.1 ≠ generateVarId k1 gv.counter := by
      intro q hq hk
      obtain ⟨k', n, hn, hk'⟩ := hkeys q hq
      rw [hk'] at hk
      have := generateVarId_counter_inj _ _ _ _ hk
      omega
    refine ⟨?_, ?_, ?_⟩
    · rintro rfl
      rw [hid1]
      have happ : (gv.styles ++ [(generateVarId k1 gv.counter, v1)]).find?
          (fun p => p.2 == v1) = some (generateVarId k1 gv.counter, v1) := by
        rw [find?_append_none _ _ _ hfind]
        simp [List.find?_cons]
      simp [findOrCreateVar, happ]
    · intro hne
      rw [hid1]
      cases hfind2 : (gv.styles ++ [(generateVarId k1 gv.counter, v1)]).find?
          (fun q => q.2 == v2) with
      | some q =>
        have hqmem := List.mem_of_find?_eq_some hfind2
        have hqval : q.2 = v2 := by
          have := List.find?_some hfind2
          simpa using this
        simp only [findOrCreateVar, hfind2]
        rcases List.mem_append.mp hqmem with hmem | hmem
        · obtain ⟨k', n, hn, hk'⟩ := hkeys q hmem
          rw [hk']
          intro hcontra
          have := generateVarId_counter_inj _ _ _ _ hcontra
          omega
        · rcases List.mem_singleton.mp hmem with rfl
          exact absurd hqval hne
      | none =>
        simp only [findOrCreateVar, hfind2]
        intro hcontra
        have := generateVarId_counter_inj _ _ _ _ hcontra
        simp at this
    · intro _
      rw [hid1]
      exact ⟨rfl, List.mem_append_right _ (List.mem_singleton.mpr rfl), hfresh⟩

/-- Witness for C1 at a concrete store and concrete values. -/
theorem C1_findOrCreateVar_dedup_witness :
    WFStore ⟨[], 0⟩ ∧
    ((Json.num 1 = Json.num 2 →
      (findOrCreateVar (findOrCreateVar ⟨[], 0⟩ (Json.num 1) "spans").2 (Json.num 2) "spans").1
        = (findOrCreateVar ⟨[], 0⟩ (Json.num 1) "spans").1 ∧
      (findOrCreateVar (findOrCreateVar ⟨[], 0⟩ (Json.num 1) "spans").2 (Json.num 2)
          "spans").2.styles.length
        = (findOrCreateVar ⟨[], 0⟩ (Json.num 1) "spans").2.styles.length) ∧
    (Json.num 1 ≠ Json.num 2 →
      (findOrCreateVar (findOrCreateVar ⟨[], 0⟩ (Json.num 1) "spans").2 (Json.num 2) "spans").1
        ≠ (findOrCreateVar ⟨[], 0⟩ (Json.num 1) "spans").1) ∧
    (([] : List (String × Json)).find? (fun p => p.2 == Json.num 1) = none →
      (findOrCreateVar ⟨[], 0⟩ (Json.num 1) "spans").1 = generateVarId "spans" 0 ∧
      ((findOrCreateVar ⟨[], 0⟩ (Json.num 1) "spans").1, Json.num 1)
        ∈ (findOrCreateVar ⟨[], 0⟩ (Json.num 1) "spans").2.styles ∧
      ∀ q ∈ ([] : List (String × Json)), q.1 ≠ (findOrCreateVar ⟨[], 0⟩ (Json.num 1) "spans").1)) :=
  ⟨WFStore_empty, C1_findOrCreateVar_dedup ⟨[], 0⟩ WFStore_empty (Json.num 1) (Json.num 2)
    "spans" "spans"⟩

/-- Layout grid entry of a raw node (Figma LayoutGrid).  Numeric fields are
machine floats in the source, embedded as rationals. -/
structure LayoutGrid where
  pattern : String
  sectionSize : Option Rat
  gutterSize : Option Rat
  alignment : Option String
  offset : Option Rat
  count : Option Rat

/-- RGBA color payload of a fill or gradient stop. -/
structure ColorRGBA where
  r : Rat
  g : Rat
  b : Rat
  a : Option Rat

/-- Gradient stop of a gradient fill. -/
structure GradientStop where
  color : ColorRGBA

/-- Fill paint of a raw node (Figma Paint). -/
structure FillData where
  fillType : String
  color : Option ColorRGBA
  opacity : Option Rat
  gradientStops : Option (List GradientStop)

/-- Type style payload of a text style node (Figma TypeStyle); only the
fields read by global-styles.ts are embedded. -/
structure TextStyleData where
  fontFamily : Option String
  fontPostScriptName : Option String
  fontSize : Option Rat
  lineHeightPx : Option Rat
  lineHeightPercent : Option Rat
  letterSpacing : Option Rat
  paragraphSpacing : Option Rat
  textCase : Option String
  textDecoration : Option String

/-- Raw document node (Figma Node), with the fields the embedded functions
read: id (colon-delimited in raw files), type, optional layout grids,
optional type style, optional fills, optional children.  An absent field is
none (undefined in the source); note that present-but-empty lists are
`some []`, which is truthy in JavaScript. -/
inductive Node where
  | mk (id ty : String) (layoutGrids : Option (List LayoutGrid))
      (style : Option TextStyleData) (fills : Option (List FillData))
      (children : Option (List Node)) : Node

def Node.id : Node → String
  | .mk i _ _ _ _ _ => i

def Node.type : Node → String
  | .mk _ ty _ _ _ _ => ty

def Node.layoutGrids : Node → Option (List LayoutGrid)
  | .mk _ _ lg _ _ _ => lg

def Node.style : Node → Option TextStyleData
  | .mk _ _ _ st _ _ => st

def Node.fills : Node → Option (List FillData)
  | .mk _ _ _ _ fl _ => fl

def Node.children : Node → Option (List Node)
  | .mk _ _ _ _ _ ch => ch

/-- Translation of the id normalization `targetId.replace` of every dash
with a colon (grid-extractor.ts lines 36, 60, 162, and the test's line 91):
each dash character becomes a colon, all other characters are unchanged. -/
def dashToColon (s : String) : String :=
  String.mk (s.data.map (fun c => if c = '-' then ':' else c))

/-- Modelled from the spec: the inverse direction of the "pure,
bidirectional mapping" between external dash-delimited ids and internal
colon-delimited ids (spec section 4.4); the repository applies it outside
src/ when presenting internal ids externally.  Every colon becomes a dash. -/
def colonToDash (s : String) : String :=
  String.mk (s.data.map (fun c => if c = ':' then '-' else c))

/-- Truthiness-and-some test of grid-extractor.ts lines 70-71: the node has
a layoutGrids array containing at least one COLUMNS-pattern grid. -/
def hasColumnsGrid (n : Node) : Bool :=
  match n.layoutGrids with
  | some gs => gs.any (fun g => g.pattern == "COLUMNS")
  | none => false

/-- Condition of grid-extractor.ts lines 68-74: a FRAME node carrying a
columns-pattern layout grid becomes the grid frame for its children. -/
def qualifiesGridFrame (n : Node) : Bool :=
  n.type == "FRAME" && hasColumnsGrid n

/-- Search loop of `findNodeById` (grid-extractor.ts lines 34-48) after the
target id has been normalized; the source re-applies the (idempotent)
normalization on recursive calls, which this embedding factors out.  The
loop over remaining siblings continues when a child subtree yields nothing. -/
def findNodeLoop (t : String) : List Node → Option Node
  | [] => none
  | (Node.mk i ty lg st fl ch) :: rest =>
    if i = t then some (Node.mk i ty lg st fl ch)
    else
      match ch with
      | some cs =>
        match findNodeLoop t cs with
        | some m => some m
        | none => findNodeLoop t rest
      | none => findNodeLoop t rest
termination_by ns => sizeOf ns
decreasing_by all_goals (simp_wf; try omega)

/-- Translation of `findNodeById` (grid-extractor.ts lines 34-48): convert
the external dash-delimited target id to colon form, then search the tree
depth-first for an exact id match. -/
def findNodeById (nodes : List Node) (targetId : String) : Option Node :=
  findNodeLoop (dashToColon targetId) nodes

/-- File-scoped style map of the raw file (`fileData.styles`), with the
optional `grid` dictionary read by grid-extractor.ts line 82. -/
structure FileStyles where
  grid : Option (List (String × String))

/-- Result record of `findParentArtboardWithGrid`. -/
structure GridHit where
  artboard : Node
  gridNodeId : String

/-- Lookup of `fileStyles?.grid[frameId]` (grid-extractor.ts lines 81-83);
an empty string value is falsy in JavaScript and treated as absent. -/
def styleGridLookup (fileStyles : Option FileStyles) (frameId : String) : Option String :=
  match fileStyles with
  | none => none
  | some st =>
    match st.grid with
    | none => none
    | some g =>
      match g.find? (fun p => p.1 == frameId) with
      | some p => if p.2 = "" then none else some p.2
      | none => none

/-- Result construction at the target (grid-extractor.ts lines 79-89): if
the file styles associate a grid node id with the parent grid frame, return
it, otherwise use the frame itself as the grid node. -/
def mkGridHit (fileStyles : Option FileStyles) (f : Node) : GridHit :=
  match styleGridLookup fileStyles f.id with
  | some gid => { artboard := f, gridNodeId := gid }
  | none => { artboard := f, gridNodeId := f.id }

/-- Translation of the inner `searchWithParent` of
`findParentArtboardWithGrid` (grid-extractor.ts lines 62-100): depth-first
preorder walk threading the nearest enclosing qualifying frame as an
accumulator; at the target node the accumulated parent frame (never the
target itself) decides the result (`Option.map` embeds the
`if parentGridFrame / return null` pair), and a null result bubbles up so
that the enclosing scope keeps searching its remaining siblings. -/
def searchWithParent (t : String) (fileStyles : Option FileStyles) :
    List Node → Option Node → Option GridHit
  | [], _ => none
  | (Node.mk i ty lg st fl ch) :: rest, parentGridFrame =>
    if i = t then Option.map (mkGridHit fileStyles) parentGridFrame
    else
      match ch with
      | some cs =>
        match searchWithParent t fileStyles cs
            (if qualifiesGridFrame (Node.mk i ty lg st fl ch) then
              some (Node.mk i ty lg st fl ch) else parentGridFrame) with
        | some r => some r
        | none => searchWithParent t fileStyles rest parentGridFrame
      | none => searchWithParent t fileStyles rest parentGridFrame
termination_by ns _ => sizeOf ns
decreasing_by all_goals (simp_wf; try omega)

/-- Translation of `findParentArtboardWithGrid` (grid-extractor.ts lines
53-103). -/
def findParentArtboardWithGrid (nodes : List Node) (targetNodeId : String)
    (fileStyles : Option FileStyles) : Option GridHit :=
  searchWithParent (dashToColon targetNodeId) fileStyles nodes none

/-- Number of nodes in the forest (including nested ones) whose raw id is
`t`; a specification-side notion used to state uniqueness of the target. -/
def occCount (t : String) : List Node → Nat
  | [] => 0
  | (Node.mk i _ _ _ _ ch) :: rest =>
    (if i = t then 1 else 0) +
      (match ch with
       | some cs => occCount t cs
       | none => 0) + occCount t rest
termination_by ns => sizeOf ns
decreasing_by all_goals (simp_wf; try omega)

/-- Strict ancestor chain (outermost first) of the first preorder
occurrence of id `t` in the forest; a specification-side notion. -/
def pathToFirst (t : String) : List Node → Option (List Node)
  | [] => none
  | (Node.mk i ty lg st fl ch) :: rest =>
    if i = t then some []
    else
      match ch with
      | some cs =>
        match pathToFirst t cs with
        | some anc => some (Node.mk i ty lg st fl ch :: anc)
        | none => pathToFirst t rest
      | none => pathToFirst t rest
termination_by ns => sizeOf ns
decreasing_by all_goals (simp_wf; try omega)

/-- Grid frame a node with the given strict ancestor chain inherits: the
innermost qualifying ancestor, else the ambient accumulator. -/
def inheritedFrame (acc : Option Node) (anc : List Node) : Option Node :=
  anc.foldl (fun s n => if qualifiesGridFrame n then some n else s) acc

theorem bound_tail {i ty : String} {lg : Option (List LayoutGrid)}
    {st : Option TextStyleData} {fl : Option (List FillData)}
    {ch : Option (List Node)} {rest : List Node} {fuel : Nat}
    (hs : sizeOf ((Node.mk i ty lg st fl ch) :: rest) ≤ fuel + 1) :
    sizeOf rest ≤ fuel := by
  simp_arith at hs
  omega

theorem bound_children {i ty : String} {lg : Option (List LayoutGrid)}
    {st : Option TextStyleData} {fl : Option (List FillData)}
    {cs : List Node} {rest : List Node} {fuel : Nat}
    (hs : sizeOf ((Node.mk i ty lg st fl (some cs)) :: rest) ≤ fuel + 1) :
    sizeOf cs ≤ fuel := by
  simp_arith at hs
  omega

theorem occCount_zero_search_none (t : String) (styles : Option FileStyles) :
    ∀ (fuel : Nat) (ns : List Node), sizeOf ns ≤ fuel →
      occCount t ns = 0 → ∀ acc, searchWithParent t styles ns acc = none := by
  intro fuel
  induction fuel with
  | zero => intro ns hs; cases ns <;> simp_arith at hs
  | succ fuel ih =>
    intro ns hs hocc acc
    cases ns with
    | nil => simp [searchWithParent]
    | cons n rest =>
      obtain ⟨i, ty, lg, st, fl, ch⟩ := n
      cases ch with
      | none =>
        simp only [occCount] at hocc
        by_cases hi : i = t
        · simp [hi] at hocc
        · simp only [searchWithParent, if_neg hi]
          exact ih rest (bound_tail hs) (by omega) acc
      | some cs =>
        simp only [occCount] at hocc
        by_cases hi : i = t
        · simp [hi] at hocc
        · simp only [if_neg hi, Nat.zero_add] at hocc
          have h1 : occCount t cs = 0 := by omega
          have h2 : occCount t rest = 0 := by omega
          simp only [searchWithParent, if_neg hi]
          rw [ih cs (bound_children hs) h1, ih rest (bound_tail hs) h2]

theorem path_none_iff_occ_zero (t : String) :
    ∀ (fuel : Nat) (ns : List Node), sizeOf ns ≤ fuel →
      (pathToFirst t ns = none ↔ occCount t ns = 0) := by
  intro fuel
  induction fuel with
  | zero => intro ns hs; cases ns <;> simp_arith at hs
  | succ fuel ih =>
    intro ns hs
    cases ns with
    | nil => simp [pathToFirst, occCount]
    | cons n rest =>
      obtain ⟨i, ty, lg, st, fl, ch⟩ := n
      cases ch with
      | none =>
        by_cases hi : i = t
        · simp [pathToFirst, occCount, hi]
        · simp only [pathToFirst, occCount, if_neg hi, Nat.zero_add]
          exact ih rest (bound_tail hs)
      | some cs =>
        by_cases hi : i = t
        · simp [pathToFirst, occCount, hi]
        · simp only [pathToFirst, occCount, if_neg hi, Nat.zero_add]
          cases hcs : pathToFirst t cs with
          | some anc =>
            have hnz : occCount t cs ≠ 0 := by
              intro h0
              rw [(ih cs (bound_children hs)).mpr h0] at hcs
              cases hcs
            constructor
            · intro h; exact absurd h (by simp)
            · intro h; omega
          | none =>
            have h0 : occCount t cs = 0 := (ih cs (bound_children hs)).mp hcs
            rw [h0]
            simpa using ih rest (bound_tail hs)

theorem findNodeLoop_none_iff_occ_zero (t : String) :
    ∀ (fuel : Nat) (ns : List Node), sizeOf ns ≤ fuel →
      (findNodeLoop t ns = none ↔ occCount t ns = 0) := by
  intro fuel
  induction fuel with
  | zero => intro ns hs; cases ns <;> simp_arith at hs
  | succ fuel ih =>
    intro ns hs
    cases ns with
    | nil => simp [findNodeLoop, occCount]
    | cons n rest =>
      obtain ⟨i, ty, lg, st, fl, ch⟩ := n
      cases ch with
      | none =>
        by_cases hi : i = t
        · simp [findNodeLoop, occCount, hi]
        · simp only [findNodeLoop, occCount, if_neg hi, Nat.zero_add]
          exact ih rest (bound_tail hs)
      | some cs =>
        by_cases hi : i = t
        · simp [findNodeLoop, occCount, hi]
        · simp only [findNodeLoop, occCount, if_neg hi, Nat.zero_add]
          cases hcs : findNodeLoop t cs with
          | some m =>
            have hnz : occCount t cs ≠ 0 := by
              intro h0
              rw [(ih cs (bound_children hs)).mpr h0] at hcs
              cases hcs
            constructor
            · intro h; exact absurd h (by simp)
            · intro h; omega
          | none =>
            have h0 : occCount t cs = 0 := (ih cs (bound_children hs)).mp hcs
            rw [h0]
            simpa using ih rest (bound_tail hs)

theorem inheritedFrame_cons (acc : Option Node) (n : Node) (l : List Node) :
    inheritedFrame acc (n :: l)
      = inheritedFrame (if qualifiesGridFrame n then some n else acc) l := rfl

theorem inheritedFrame_nonqual (l : List Node) (acc : Option Node)
    (h : ∀ x ∈ l, qualifiesGridFrame x = false) : inheritedFrame acc l = acc := by
  induction l generalizing acc with
  | nil => rfl
  | cons x l ih =>
    rw [inheritedFrame_cons, h x (List.mem_cons_self x l)]
    exact ih acc (fun y hy => h y (List.mem_cons_of_mem x hy))

theorem search_char (t : String) (styles : Option FileStyles) :
    ∀ (fuel : Nat) (ns : List Node), sizeOf ns ≤ fuel → ∀ (acc : Option Node) (anc : List Node),
      occCount t ns = 1 → pathToFirst t ns = some anc →
      searchWithParent t styles ns acc
        = Option.map (mkGridHit styles) (inheritedFrame acc anc) := by
  intro fuel
  induction fuel with
  | zero => intro ns hs; cases ns <;> simp_arith at hs
  | succ fuel ih =>
    intro ns hs acc anc hocc hpath
    cases ns with
    | nil => simp [occCount] at hocc
    | cons n rest =>
      obtain ⟨i, ty, lg, st, fl, ch⟩ := n
      cases ch with
      | none =>
        by_cases hi : i = t
        · simp only [pathToFirst, if_pos hi] at hpath
          injection hpath with hanc
          subst hanc
          simp only [searchWithParent, if_pos hi, inheritedFrame, List.foldl_nil]
        · simp only [pathToFirst, if_neg hi] at hpath
          simp only [occCount, if_neg hi, Nat.zero_add] at hocc
          simp only [searchWithParent, if_neg hi]
          exact ih rest (bound_tail hs) acc anc (by omega) hpath
      | some cs =>
        by_cases hi : i = t
        · simp only [pathToFirst, if_pos hi] at hpath
          injection hpath with hanc
          subst hanc
          simp only [searchWithParent, if_pos hi, inheritedFrame, List.foldl_nil]
        · simp only [occCount, if_neg hi, Nat.zero_add] at hocc
          simp only [pathToFirst, if_neg hi] at hpath
          cases hcs : pathToFirst t cs with
          | none =>
            have h0 : occCount t cs = 0 :=
              (path_none_iff_occ_zero t fuel cs (bound_children hs)).mp hcs
            rw [hcs] at hpath
            simp only [searchWithParent, if_neg hi]
            rw [occCount_zero_search_none t styles fuel cs (bound_children hs) h0]
            exact ih rest (bound_tail hs) acc anc (by omega) hpath
          | some anc' =>
            have hpos : occCount t cs ≠ 0 := by
              intro h0
              rw [(path_none_iff_occ_zero t fuel cs (bound_children hs)).mpr h0] at hcs
              cases hcs
            have hrest0 : occCount t rest = 0 := by omega
            have hcs1 : occCount t cs = 1 := by omega
            rw [hcs] at hpath
            injection hpath with hanc
            subst hanc
            simp only [searchWithParent, if_neg hi]
            rw [ih cs (bound_children hs) _ anc' hcs1 hcs]
            rw [inheritedFrame_cons]
            cases hinh : inheritedFrame
                (if qualifiesGridFrame (Node.mk i ty lg st fl (some cs)) then
                  some (Node.mk i ty lg st fl (some cs)) else acc) anc' with
            | some f => simp
            | none =>
              exact occCount_zero_search_none t styles fuel rest (bound_tail hs) hrest0 acc

/-- Per-node wrapper of a nodes response (`response.nodes[id]`), with its
optional `document` payload. -/
structure NodeWrapper where
  document : Option Node

/-- Response of the node-subset endpoint (`getRawNode`), a node-id keyed
dictionary in key order. -/
structure NodesResponse where
  nodes : List (String × NodeWrapper)

/-- Root DOCUMENT node of a raw file; the Figma API guarantees its children
are present, and the source reads `fileData.document.children` directly. -/
structure DocumentRoot where
  children : List Node

/-- Raw whole-file response (`getRawFile`): root document plus the
file-scoped styles dictionary. -/
structure FileData where
  document : DocumentRoot
  styles : Option FileStyles

/-- Modelled from the spec: the design-source collaborator `FigmaService`
(src/services/figma.ts, missing from src/) with the two calls the embedded
functions make (spec section 6: `fetchDocument` and `fetchNodes`, both of
which "may fail with transient network/auth errors"), embedded as oracles
returning Except. -/
structure FigmaServiceT where
  getRawFile : String → Except String FileData
  getRawNode : String → String → Except String NodesResponse

/-- Lookup in the process-wide grid cache (a JavaScript Map keyed by
strings; grid-extractor.ts line 8). -/
def cacheLookup (c : List (String × Node)) (k : String) : Option Node :=
  (c.find? (fun p => p.1 == k)).map (fun p => p.2)

/-- `Map.set` on the grid cache: update the existing entry in place or
append a new one. -/
def cacheSet (c : List (String × Node)) (k : String) (v : Node) : List (String × Node) :=
  if c.any (fun p => p.1 == k) then
    c.map (fun p => if p.1 == k then (k, v) else p)
  else c ++ [(k, v)]

/-- First value's document of a nodes response
(`Object.values(gridNodeResponse.nodes)[0]?.document`,
grid-extractor.ts line 137). -/
def firstNodeDoc (resp : NodesResponse) : Option Node :=
  match resp.nodes.head? with
  | some p => p.2.document
  | none => none

/-- Result record of `createGridContext`. -/
structure GridContextResult where
  gridArtboard : Option Node
  targetFound : Bool

/-- Translation of `createGridContext` (grid-extractor.ts lines 108-155).
The process-wide `gridCache` (line 8) is threaded as explicit state and the
updated cache is returned; the third component records the remote calls the
run performs, so that "no second fetch" claims are observable.  The
try/catch of the source is embedded by matching on the oracle's Except
results: the only fallible operations in the body are the two remote calls,
and a caught error produces `{gridArtboard: null, targetFound: false}`
(line 153). -/
def createGridContext (figmaService : FigmaServiceT) (fileKey targetNodeId : String)
    (rawFileData : Option FileData) (gridCache : List (String × Node)) :
    GridContextResult × List (String × Node) × List String :=
  match (match rawFileData with
         | some fd => (Except.ok fd, ([] : List String))
         | none => (figmaService.getRawFile fileKey, ["getRawFile:" ++ fileKey])) with
  | (Except.error _, reqs) =>
    ({ gridArtboard := none, targetFound := false }, gridCache, reqs)
  | (Except.ok fileData, reqs) =>
    match findParentArtboardWithGrid fileData.document.children targetNodeId
        fileData.styles with
    | none =>
      ({ gridArtboard := none,
         targetFound := (findNodeById fileData.document.children targetNodeId).isSome },
        gridCache, reqs)
    | some gridInfo =>
      match cacheLookup gridCache (fileKey ++ ":" ++ gridInfo.gridNodeId) with
      | some gridNode =>
        ({ gridArtboard := some gridNode, targetFound := true }, gridCache, reqs)
      | none =>
        match figmaService.getRawNode fileKey gridInfo.gridNodeId with
        | Except.error _ =>
          ({ gridArtboard := none, targetFound := false }, gridCache,
            reqs ++ ["getRawNode:" ++ fileKey ++ ":" ++ gridInfo.gridNodeId])
        | Except.ok resp =>
          ({ gridArtboard := firstNodeDoc resp, targetFound := true },
            (match firstNodeDoc resp with
             | some gn => cacheSet gridCache (fileKey ++ ":" ++ gridInfo.gridNodeId) gn
             | none => gridCache),
            reqs ++ ["getRawNode:" ++ fileKey ++ ":" ++ gridInfo.gridNodeId])

theorem mkGridHit_artboard (styles : Option FileStyles) (f : Node) :
    (mkGridHit styles f).artboard = f := by
  unfold mkGridHit
  cases styleGridLookup styles f.id <;> rfl

/-- C2: for a uniquely occurring target, grid resolution returns the
nearest strict ancestor frame carrying a COLUMNS-pattern grid — the
innermost qualifying element of the target's strict ancestor chain — and
never the target's own grid (the target node is not part of its ancestor
chain, and its own grids play no role); in the ancestry A(grid) > B(grid) >
C(target) this yields B. -/
theorem C2_findParentArtboard_nearest_strict_ancestor
    (trees : List Node) (targetNodeId : String) (styles : Option FileStyles)
    (anc l1 l2 : List Node) (b : Node)
    (hocc : occCount (dashToColon targetNodeId) trees = 1)
    (hpath : pathToFirst (dashToColon targetNodeId) trees = some anc)
    (hanc : anc = l1 ++ b :: l2)
    (hb : qualifiesGridFrame b = true)
    (hl2 : ∀ x ∈ l2, qualifiesGridFrame x = false) :
    (findParentArtboardWithGrid trees targetNodeId styles).map GridHit.artboard
      = some b := by
  unfold findParentArtboardWithGrid
  rw [search_char (dashToColon targetNodeId) styles (sizeOf trees) trees (Nat.le_refl _)
    none anc hocc hpath]
  subst hanc
  have hfold : inheritedFrame none (l1 ++ b :: l2) = some b := by
    unfold inheritedFrame
    rw [List.foldl_append]
    rw [List.foldl_cons, hb]
    simp only [if_pos]
    exact inheritedFrame_nonqual l2 (some b) hl2
  rw [hfold]
  simp [mkGridHit_artboard]

/-- Concrete COLUMNS layout grid used by witnesses. -/
def colGrid : LayoutGrid := ⟨"COLUMNS", some 80, some 20, some "MIN", some 0, some 12⟩

/-- Concrete target node C, itself carrying a COLUMNS grid. -/
def nodeC : Node := Node.mk "1:2" "FRAME" (some [colGrid]) none none none

/-- Concrete middle frame B with a COLUMNS grid, containing C. -/
def nodeB : Node := Node.mk "0:2" "FRAME" (some [colGrid]) none none (some [nodeC])

/-- Concrete outer frame A with a COLUMNS grid, containing B. -/
def nodeA : Node := Node.mk "0:1" "FRAME" (some [colGrid]) none none (some [nodeB])

theorem dashToColon_concrete : dashToColon "1-2" = "1:2" := by decide

/-- Witness for C2: in the ancestry A(grid) > B(grid) > C(grid, target),
resolving for C yields B, not A and not C. -/
theorem C2_findParentArtboard_nearest_strict_ancestor_witness :
    occCount (dashToColon "1-2") [nodeA] = 1 ∧
    pathToFirst (dashToColon "1-2") [nodeA] = some [nodeA, nodeB] ∧
    qualifiesGridFrame nodeB = true ∧
    (findParentArtboardWithGrid [nodeA] "1-2" none).map GridHit.artboard = some nodeB := by
  have h1 : occCount (dashToColon "1-2") [nodeA] = 1 := by
    rw [dashToColon_concrete]
    simp [occCount, nodeA, nodeB, nodeC]
  have h2 : pathToFirst (dashToColon "1-2") [nodeA] = some [nodeA, nodeB] := by
    rw [dashToColon_concrete]
    simp [pathToFirst, nodeA, nodeB, nodeC]
  have h3 : qualifiesGridFrame nodeB = true := by decide
  refine ⟨h1, h2, h3, ?_⟩
  exact C2_findParentArtboard_nearest_strict_ancestor [nodeA] "1-2" none
    [nodeA, nodeB] [nodeA] [] nodeB h1 h2 rfl h3 (by simp)

/-- C3: with the raw tree provided, createGridContext reports a uniquely
occurring target with no qualifying ancestor frame as
`{gridArtboard: null, targetFound: true}`, and a target id absent from the
tree as `{gridArtboard: null, targetFound: false}`; absence is reported via
the boolean of a total function, never by throwing. -/
theorem C3_createGridContext_reports_absence
    (svc : FigmaServiceT) (fd : FileData) (fileKey targetNodeId : String)
    (cache : List (String × Node)) (anc : List Node) :
    ((occCount (dashToColon targetNodeId) fd.document.children = 1 ∧
      pathToFirst (dashToColon targetNodeId) fd.document.children = some anc ∧
      (∀ x ∈ anc, qualifiesGridFrame x = false)) →
      (createGridContext svc fileKey targetNodeId (some fd) cache).1
        = { gridArtboard := none, targetFound := true }) ∧
    (occCount (dashToColon targetNodeId) fd.document.children = 0 →
      (createGridContext svc fileKey targetNodeId (some fd) cache).1
        = { gridArtboard := none, targetFound := false }) := by
  constructor
  · rintro ⟨hocc, hpath, hnq⟩
    have hfp : findParentArtboardWithGrid fd.document.children targetNodeId
        fd.styles = none := by
      unfold findParentArtboardWithGrid
      rw [search_char _ fd.styles (sizeOf fd.document.children) _ (Nat.le_refl _)
        none anc hocc hpath]
      rw [inheritedFrame_nonqual anc none hnq]
      rfl
    have hloop : (findNodeLoop (dashToColon targetNodeId)
        fd.document.children).isSome = true := by
      cases hl : findNodeLoop (dashToColon targetNodeId) fd.document.children with
      | none =>
        have := (findNodeLoop_none_iff_occ_zero _ (sizeOf fd.document.children) _
          (Nat.le_refl _)).mp hl
        omega
      | some m => rfl
    simp [createGridContext, hfp, findNodeById, hloop]
  · intro hocc0
    have hfp : findParentArtboardWithGrid fd.document.children targetNodeId
        fd.styles = none := by
      unfold findParentArtboardWithGrid
      rw [occCount_zero_search_none _ fd.styles (sizeOf fd.document.children) _
        (Nat.le_refl _) hocc0]
    have hloop : findNodeLoop (dashToColon targetNodeId) fd.document.children = none :=
      (findNodeLoop_none_iff_occ_zero _ (sizeOf fd.document.children) _
        (Nat.le_refl _)).mpr hocc0
    simp [createGridContext, hfp, findNodeById, hloop]

/-- Service oracle whose remote calls always fail. -/
def svcDummy : FigmaServiceT :=
  ⟨fun _ => Except.error "offline", fun _ _ => Except.error "offline"⟩

/-- Concrete target without any qualifying ancestor: a GROUP parent with no
grids containing the target text node. -/
def nodeCText : Node := Node.mk "1:2" "TEXT" none none none none

/-- Concrete non-qualifying parent of the target. -/
def nodeParentPlain : Node := Node.mk "0:9" "GROUP" none none none (some [nodeCText])

/-- Concrete raw file with no qualifying ancestor for the target. -/
def fdPlain : FileData := ⟨⟨[nodeParentPlain]⟩, none⟩

/-- Witness for C3 at a concrete tree: target present without a qualifying
ancestor gives null artboard and targetFound true; an absent target id
gives null artboard and targetFound false. -/
theorem C3_createGridContext_reports_absence_witness :
    ((occCount (dashToColon "1-2") fdPlain.document.children = 1 ∧
      pathToFirst (dashToColon "1-2") fdPlain.document.children = some [nodeParentPlain] ∧
      (∀ x ∈ [nodeParentPlain], qualifiesGridFrame x = false)) →
      (createGridContext svcDummy "key" "1-2" (some fdPlain) []).1
        = { gridArtboard := none, targetFound := true }) ∧
    ((occCount (dashToColon "1-2") fdPlain.document.children = 1 ∧
      pathToFirst (dashToColon "1-2") fdPlain.document.children = some [nodeParentPlain] ∧
      (∀ x ∈ [nodeParentPlain], qualifiesGridFrame x = false)) ∧
     occCount (dashToColon "9-9") fdPlain.document.children = 0 ∧
     (createGridContext svcDummy "key" "1-2" (some fdPlain) []).1
        = { gridArtboard := none, targetFound := true } ∧
     (createGridContext svcDummy "key" "9-9" (some fdPlain) []).1
        = { gridArtboard := none, targetFound := false }) := by
  have hhyp : occCount (dashToColon "1-2") fdPlain.document.children = 1 ∧
      pathToFirst (dashToColon "1-2") fdPlain.document.children = some [nodeParentPlain] ∧
      (∀ x ∈ [nodeParentPlain], qualifiesGridFrame x = false) := by
    refine ⟨?_, ?_, ?_⟩
    · rw [dashToColon_concrete]
      simp [occCount, fdPlain, nodeParentPlain, nodeCText]
    · rw [dashToColon_concrete]
      simp [pathToFirst, fdPlain, nodeParentPlain, nodeCText]
    · intro x hx
      rcases List.mem_singleton.mp hx with rfl
      decide
  have habs : occCount (dashToColon "9-9") fdPlain.document.children = 0 := by
    have h99 : dashToColon "9-9" = "9:9" := by decide
    rw [h99]
    simp [occCount, fdPlain, nodeParentPlain, nodeCText]
  refine ⟨fun _ => ?_, hhyp, habs, ?_, ?_⟩
  · exact (C3_createGridContext_reports_absence svcDummy fdPlain "key" "1-2" []
      [nodeParentPlain]).1 hhyp
  · exact (C3_createGridContext_reports_absence svcDummy fdPlain "key" "1-2" []
      [nodeParentPlain]).1 hhyp
  · exact (C3_createGridContext_reports_absence svcDummy fdPlain "key" "9-9" []
      [nodeParentPlain]).2 habs


/-- Concrete raw file whose target sits inside the qualifying frame B, so
grid resolution succeeds and a remote fetch of the grid node is attempted. -/
def fdGrid : FileData := ⟨⟨[nodeB]⟩, none⟩

theorem fdGrid_findParent :
    findParentArtboardWithGrid fdGrid.document.children "1-2" fdGrid.styles
      = some { artboard := nodeB, gridNodeId := "0:2" } := by
  unfold findParentArtboardWithGrid
  rw [dashToColon_concrete]
  simp only [fdGrid, nodeB, nodeC]
  rw [searchWithParent, if_neg (by decide : ¬("0:2" = "1:2"))]
  rw [if_pos (by rfl :
    qualifiesGridFrame (Node.mk "0:2" "FRAME" (some [colGrid]) none none
      (some [Node.mk "1:2" "FRAME" (some [colGrid]) none none none])) = true)]
  simp only [searchWithParent, if_pos]
  rfl

theorem fdGrid_target_found :
    (findNodeById fdGrid.document.children "1-2").isSome = true := by
  unfold findNodeById
  rw [dashToColon_concrete]
  simp only [fdGrid, nodeB, nodeC]
  rw [findNodeLoop, if_neg (by decide : ¬("0:2" = "1:2"))]
  simp only [findNodeLoop, if_pos]
  rfl

theorem createGridContext_fetch_error (svc : FigmaServiceT) (fd : FileData)
    (fileKey targetNodeId : String) (cache : List (String × Node)) (gi : GridHit)
    (e : String)
    (hfind : findParentArtboardWithGrid fd.document.children targetNodeId
      fd.styles = some gi)
    (hcache : cacheLookup cache (fileKey ++ ":" ++ gi.gridNodeId) = none)
    (herr : svc.getRawNode fileKey gi.gridNodeId = Except.error e) :
    createGridContext svc fileKey targetNodeId (some fd) cache
      = ({ gridArtboard := none, targetFound := false }, cache,
         ["getRawNode:" ++ fileKey ++ ":" ++ gi.gridNodeId]) := by
  simp [createGridContext, hfind, hcache, herr]

theorem createGridContext_cache_hit (svc : FigmaServiceT) (fd : FileData)
    (fileKey targetNodeId : String) (cache : List (String × Node)) (gi : GridHit)
    (gn : Node)
    (hfind : findParentArtboardWithGrid fd.document.children targetNodeId
      fd.styles = some gi)
    (hcache : cacheLookup cache (fileKey ++ ":" ++ gi.gridNodeId) = some gn) :
    createGridContext svc fileKey targetNodeId (some fd) cache
      = ({ gridArtboard := some gn, targetFound := true }, cache, []) := by
  simp [createGridContext, hfind, hcache]

theorem createGridContext_fetch_ok (svc : FigmaServiceT) (fd : FileData)
    (fileKey targetNodeId : String) (cache : List (String × Node)) (gi : GridHit)
    (resp : NodesResponse) (gn : Node)
    (hfind : findParentArtboardWithGrid fd.document.children targetNodeId
      fd.styles = some gi)
    (hcache : cacheLookup cache (fileKey ++ ":" ++ gi.gridNodeId) = none)
    (hok : svc.getRawNode fileKey gi.gridNodeId = Except.ok resp)
    (hdoc : firstNodeDoc resp = some gn) :
    createGridContext svc fileKey targetNodeId (some fd) cache
      = ({ gridArtboard := some gn, targetFound := true },
         cacheSet cache (fileKey ++ ":" ++ gi.gridNodeId) gn,
         ["getRawNode:" ++ fileKey ++ ":" ++ gi.gridNodeId]) := by
  simp [createGridContext, hfind, hcache, hok, hdoc]

/-- Counterexample to C4 as stated: with the raw tree provided and the
target present under a grid frame (so target existence is established
before the fetch), a failing grid-node fetch makes createGridContext
return `targetFound: false` — the established target-existence knowledge
is not preserved. -/
theorem C4_counterexample_targetFound_lost :
    (createGridContext svcDummy "key" "1-2" (some fdGrid) []).1
      = { gridArtboard := none, targetFound := false } ∧
    (findNodeById fdGrid.document.children "1-2").isSome = true := by
  refine ⟨?_, fdGrid_target_found⟩
  rw [createGridContext_fetch_error svcDummy fdGrid "key" "1-2" []
    { artboard := nodeB, gridNodeId := "0:2" } "offline" fdGrid_findParent rfl rfl]

/-- C4 as amended: when the remote grid-node fetch fails, the error is
caught and createGridContext returns `{gridArtboard: null, targetFound:
false}` with the cache unchanged — no exception propagates (the embedding
is a total function), but the established target-existence knowledge is
reset to false rather than preserved. -/
theorem C4_fetch_error_caught_returns_null_false
    (svc : FigmaServiceT) (fd : FileData) (fileKey targetNodeId : String)
    (cache : List (String × Node)) (gi : GridHit) (e : String)
    (hfind : findParentArtboardWithGrid fd.document.children targetNodeId
      fd.styles = some gi)
    (hcache : cacheLookup cache (fileKey ++ ":" ++ gi.gridNodeId) = none)
    (herr : svc.getRawNode fileKey gi.gridNodeId = Except.error e) :
    (createGridContext svc fileKey targetNodeId (some fd) cache).1
      = { gridArtboard := none, targetFound := false } ∧
    (createGridContext svc fileKey targetNodeId (some fd) cache).2.1 = cache := by
  rw [createGridContext_fetch_error svc fd fileKey targetNodeId cache gi e
    hfind hcache herr]
  exact ⟨rfl, rfl⟩

/-- Witness for the amended C4 at a concrete tree and failing service. -/
theorem C4_fetch_error_caught_returns_null_false_witness :
    findParentArtboardWithGrid fdGrid.document.children "1-2" fdGrid.styles
      = some { artboard := nodeB, gridNodeId := "0:2" } ∧
    cacheLookup [] ("key" ++ ":" ++ "0:2") = none ∧
    svcDummy.getRawNode "key" "0:2" = Except.error "offline" ∧
    (createGridContext svcDummy "key" "1-2" (some fdGrid) []).1
      = { gridArtboard := none, targetFound := false } ∧
    (createGridContext svcDummy "key" "1-2" (some fdGrid) []).2.1 = [] := by
  have happ := C4_fetch_error_caught_returns_null_false svcDummy fdGrid "key" "1-2"
    [] { artboard := nodeB, gridNodeId := "0:2" } "offline" fdGrid_findParent rfl rfl
  exact ⟨fdGrid_findParent, rfl, rfl, happ.1, happ.2⟩

theorem cacheLookup_cacheSet_self (c : List (String × Node)) (k : String) (v : Node) :
    cacheLookup (cacheSet c k v) k = some v := by
  unfold cacheSet
  by_cases h : c.any (fun p => p.1 == k) = true
  · rw [if_pos h]
    revert h
    induction c with
    | nil => intro h; simp at h
    | cons hd tl ih =>
      intro h
      simp only [List.map_cons]
      cases hq : (hd.1 == k) with
      | true =>
        simp only [cacheLookup, List.find?_cons, hq, if_pos]
        simp
      | false =>
        simp only [List.any_cons, hq, Bool.false_or] at h
        simp only [List.map_cons, hq, Bool.false_eq_true, if_false]
        unfold cacheLookup
        rw [List.find?_cons_of_neg _ (by simp [hq])]
        exact ih h
  · rw [if_neg h]
    unfold cacheLookup
    rw [find?_append_none _ _ _ (List.find?_eq_none.mpr (by
      intro p hp
      intro hpk
      exact h (List.any_eq_true.mpr ⟨p, hp, hpk⟩)))]
    simp

/-- C8: after a first resolution that fetches the grid node successfully,
the node is stored in the process-wide cache under `fileKey:gridNodeId`,
and a second call resolving the same pair answers from the cache with the
same node and performs no remote request at all, for any service oracle. -/
theorem C8_gridCache_second_call_no_fetch
    (svc : FigmaServiceT) (fd : FileData) (fileKey targetNodeId : String)
    (cache : List (String × Node)) (gi : GridHit) (resp : NodesResponse) (gn : Node)
    (hfind : findParentArtboardWithGrid fd.document.children targetNodeId
      fd.styles = some gi)
    (hcache : cacheLookup cache (fileKey ++ ":" ++ gi.gridNodeId) = none)
    (hok : svc.getRawNode fileKey gi.gridNodeId = Except.ok resp)
    (hdoc : firstNodeDoc resp = some gn) :
    createGridContext svc fileKey targetNodeId (some fd) cache
      = ({ gridArtboard := some gn, targetFound := true },
         cacheSet cache (fileKey ++ ":" ++ gi.gridNodeId) gn,
         ["getRawNode:" ++ fileKey ++ ":" ++ gi.gridNodeId]) ∧
    cacheLookup (cacheSet cache (fileKey ++ ":" ++ gi.gridNodeId) gn)
        (fileKey ++ ":" ++ gi.gridNodeId) = some gn ∧
    ∀ svc2 : FigmaServiceT,
      createGridContext svc2 fileKey targetNodeId (some fd)
          (cacheSet cache (fileKey ++ ":" ++ gi.gridNodeId) gn)
        = ({ gridArtboard := some gn, targetFound := true },
           cacheSet cache (fileKey ++ ":" ++ gi.gridNodeId) gn, []) := by
  refine ⟨?_, cacheLookup_cacheSet_self cache _ gn, ?_⟩
  · exact createGridContext_fetch_ok svc fd fileKey targetNodeId cache gi resp gn
      hfind hcache hok hdoc
  · intro svc2
    exact createGridContext_cache_hit svc2 fd fileKey targetNodeId _ gi gn hfind
      (cacheLookup_cacheSet_self cache _ gn)

/-- Service oracle answering the grid-node fetch with a concrete document. -/
def gridDoc : Node := Node.mk "0:2" "FRAME" (some [colGrid]) none none none

/-- Concrete nodes response carrying the grid document. -/
def respGrid : NodesResponse := ⟨[("0:2", ⟨some gridDoc⟩)]⟩

/-- Service oracle whose node fetch succeeds with `respGrid`. -/
def svcOk : FigmaServiceT :=
  ⟨fun _ => Except.error "offline", fun _ _ => Except.ok respGrid⟩

/-- Witness for C8 at a concrete tree, service, and empty initial cache. -/
theorem C8_gridCache_second_call_no_fetch_witness :
    findParentArtboardWithGrid fdGrid.document.children "1-2" fdGrid.styles
      = some { artboard := nodeB, gridNodeId := "0:2" } ∧
    cacheLookup [] ("key" ++ ":" ++ "0:2") = none ∧
    svcOk.getRawNode "key" "0:2" = Except.ok respGrid ∧
    firstNodeDoc respGrid = some gridDoc ∧
    (createGridContext svcOk "key" "1-2" (some fdGrid) []
      = ({ gridArtboard := some gridDoc, targetFound := true },
         cacheSet [] ("key" ++ ":" ++ "0:2") gridDoc,
         ["getRawNode:" ++ "key" ++ ":" ++ "0:2"]) ∧
     cacheLookup (cacheSet [] ("key" ++ ":" ++ "0:2") gridDoc)
        ("key" ++ ":" ++ "0:2") = some gridDoc ∧
     ∀ svc2 : FigmaServiceT,
       createGridContext svc2 "key" "1-2" (some fdGrid)
           (cacheSet [] ("key" ++ ":" ++ "0:2") gridDoc)
         = ({ gridArtboard := some gridDoc, targetFound := true },
            cacheSet [] ("key" ++ ":" ++ "0:2") gridDoc, [])) := by
  refine ⟨fdGrid_findParent, rfl, rfl, rfl, ?_⟩
  exact C8_gridCache_second_call_no_fetch svcOk fdGrid "key" "1-2" []
    { artboard := nodeB, gridNodeId := "0:2" } respGrid gridDoc
    fdGrid_findParent rfl rfl rfl

theorem map_dash_colon_roundtrip (l : List Char) (h : ∀ c ∈ l, c ≠ ':') :
    (l.map (fun c => if c = '-' then ':' else c)).map
      (fun c => if c = ':' then '-' else c) = l := by
  induction l with
  | nil => rfl
  | cons c cs ih =>
    simp only [List.map_cons, List.cons.injEq]
    constructor
    · by_cases hc : c = '-'
      · simp [hc]
      · rw [if_neg hc, if_neg (h c (List.mem_cons_self c cs))]
    · exact ih (fun x hx => h x (List.mem_cons_of_mem c hx))

/-- C5: on external dash-delimited ids (ids containing no colon, which
covers arbitrary UUID-bearing ids), the normalization replacing dashes with
colons is a pure function that round-trips losslessly with the colon-to-
dash direction, is injective, and makes the converted id match a raw-tree
node carrying exactly the colon form of the id. -/
theorem C5_id_normalization_lossless (s : String) (hs : ∀ c ∈ s.data, c ≠ ':') :
    colonToDash (dashToColon s) = s ∧
    (∀ t : String, (∀ c ∈ t.data, c ≠ ':') → dashToColon s = dashToColon t → s = t) ∧
    (∀ n : Node, n.id = dashToColon s → findNodeById [n] s = some n) := by
  have hround : ∀ (u : String), (∀ c ∈ u.data, c ≠ ':') →
      colonToDash (dashToColon u) = u := by
    intro u hu
    unfold colonToDash dashToColon
    exact congrArg String.mk (map_dash_colon_roundtrip u.data hu)
  refine ⟨hround s hs, ?_, ?_⟩
  · intro t ht heq
    have h1 := hround s hs
    have h2 := hround t ht
    rw [← h1, ← h2, heq]
  · intro n hid
    obtain ⟨i, ty, lg, st, fl, ch⟩ := n
    unfold findNodeById
    cases ch with
    | none =>
      rw [findNodeLoop, if_pos (by simpa [Node.id] using hid)]
    | some cs =>
      rw [findNodeLoop, if_pos (by simpa [Node.id] using hid)]

/-- Witness for C5 at a concrete UUID-bearing id. -/
theorem C5_id_normalization_lossless_witness :
    (∀ c ∈ ("123e4567-e89b-12d3-a456-426614174000" : String).data, c ≠ ':') ∧
    (colonToDash (dashToColon "123e4567-e89b-12d3-a456-426614174000")
        = "123e4567-e89b-12d3-a456-426614174000" ∧
     (∀ t : String, (∀ c ∈ t.data, c ≠ ':') →
        dashToColon "123e4567-e89b-12d3-a456-426614174000" = dashToColon t →
        "123e4567-e89b-12d3-a456-426614174000" = t) ∧
     (∀ n : Node, n.id = dashToColon "123e4567-e89b-12d3-a456-426614174000" →
        findNodeById [n] "123e4567-e89b-12d3-a456-426614174000" = some n)) :=
  ⟨by decide, C5_id_normalization_lossless "123e4567-e89b-12d3-a456-426614174000" (by decide)⟩

/-- Component property payload of an instance node; the embedded functions
never inspect it, only carry it. -/
structure ComponentProp where
  name : String
  value : String

/-- Output node under construction (SimplifiedNode of
src/extractors/types.ts), with all its fields; optional fields are absent
as none. -/
inductive SimplifiedNode where
  | mk (id name ty : String) (text textStyle fills styles strokes effects : Option String)
      (opacity : Option Rat) (borderRadius layout spans componentId : Option String)
      (componentProperties : Option (List ComponentProp))
      (children : Option (List SimplifiedNode)) : SimplifiedNode

def SimplifiedNode.id : SimplifiedNode → String
  | .mk i _ _ _ _ _ _ _ _ _ _ _ _ _ _ _ => i

def SimplifiedNode.children : SimplifiedNode → Option (List SimplifiedNode)
  | .mk _ _ _ _ _ _ _ _ _ _ _ _ _ _ _ ch => ch

/-- Assignment `result.spans = ...` (grid-extractor.ts line 174). -/
def SimplifiedNode.setSpans : SimplifiedNode → String → SimplifiedNode
  | .mk i nm ty tx ts fi sy sk ef op br ly _ ci cp ch, v =>
    .mk i nm ty tx ts fi sy sk ef op br ly (some v) ci cp ch

/-- Traversal context (TraversalContext of src/extractors/types.ts) with
its data fields; the optional figmaService collaborator reference is a
function value the embedded extractor never touches and is omitted. -/
structure TraversalContextT where
  globalVars : GlobalVarsT
  currentDepth : Nat
  parent : Option Node
  artboard : Option Node
  fileKey : Option String
  rawFileData : Option FileData

/-- Translation of `createGridExtractorWithContext` (grid-extractor.ts
lines 160-178).  The imported `extractGridSpans`
(src/transformers/style.ts, missing from src/) is taken as a parameter,
with the artboard argument curried out of its options object; mutation of
the result node and the context is embedded by returning the updated pair. -/
def createGridExtractorWithContext (extractGridSpans : Node → Node → Option Json)
    (targetNodeId : String) (gridArtboard : Option Node) :
    Node → SimplifiedNode → TraversalContextT → SimplifiedNode × TraversalContextT :=
  fun node result context =>
    if node.id ≠ dashToColon targetNodeId then (result, context)
    else
      match gridArtboard with
      | none => (result, context)
      | some ab =>
        match ab.layoutGrids with
        | none => (result, context)
        | some _ =>
          match extractGridSpans node ab with
          | none => (result, context)
          | some spans =>
            (result.setSpans (findOrCreateVar context.globalVars spans "spans").1,
              { context with
                globalVars := (findOrCreateVar context.globalVars spans "spans").2 })

/-- C9: the pre-resolved grid extractor is the identity on the output node
and the traversal context (globalVars included) for every node other than
the normalized target, and for every node whenever the pre-resolved
artboard is null; only the target with a non-null artboard can be
changed. -/
theorem C9_grid_extractor_identity_off_target
    (extractGridSpans : Node → Node → Option Json) (targetNodeId : String)
    (gridArtboard : Option Node) (node : Node) (result : SimplifiedNode)
    (context : TraversalContextT)
    (h : node.id ≠ dashToColon targetNodeId ∨ gridArtboard = none) :
    createGridExtractorWithContext extractGridSpans targetNodeId gridArtboard
      node result context = (result, context) := by
  unfold createGridExtractorWithContext
  rcases h with h | h
  · rw [if_pos h]
  · by_cases hid : node.id = dashToColon targetNodeId
    · rw [if_neg (by simpa using hid), h]
    · rw [if_pos hid]

/-- Witness for C9: a non-target node with a non-null artboard, and a
target node with a null artboard, are both left unchanged together with
the context. -/
theorem C9_grid_extractor_identity_off_target_witness :
    (nodeC.id ≠ dashToColon "9-9" ∨ (some nodeB : Option Node) = none) ∧
    createGridExtractorWithContext (fun _ _ => some (Json.num 5)) "9-9" (some nodeB)
        nodeC
        (SimplifiedNode.mk "1:2" "c" "FRAME" none none none none none none none
          none none none none none none)
        ⟨⟨[], 0⟩, 0, none, none, none, none⟩
      = (SimplifiedNode.mk "1:2" "c" "FRAME" none none none none none none none
          none none none none none none,
         ⟨⟨[], 0⟩, 0, none, none, none, none⟩) := by
  have h : nodeC.id ≠ dashToColon "9-9" ∨ (some nodeB : Option Node) = none :=
    Or.inl (by decide)
  exact ⟨h, C9_grid_extractor_identity_off_target _ "9-9" (some nodeB) nodeC _ _ h⟩

/-- Translation of the test helper `findAllNodes`
(src/tests/grid-extractor.test.ts lines 53-62): flatten the emitted output
tree in preorder. -/
def findAllNodes : List SimplifiedNode → List SimplifiedNode
  | [] => []
  | (SimplifiedNode.mk i nm ty tx ts fi sy sk ef op br ly sp ci cp ch) :: rest =>
    SimplifiedNode.mk i nm ty tx ts fi sy sk ef op br ly sp ci cp ch ::
      ((match ch with
        | some cs => findAllNodes cs
        | none => []) ++ findAllNodes rest)
termination_by ns => sizeOf ns
decreasing_by all_goals (simp_wf; try omega)

/-- Translation of the repository test's target lookup over the emitted
tree (src/tests/grid-extractor.test.ts lines 90-92): the external
dash-delimited target id is converted to colon form and compared against
the emitted SimplifiedNode ids. -/
def testTargetLookup (nodes : List SimplifiedNode) (figmaNodeId : String) :
    Option SimplifiedNode :=
  (findAllNodes nodes).find? (fun n => n.id == dashToColon figmaNodeId)

/-- Concrete emitted node carrying the raw colon-delimited id. -/
def snColon : SimplifiedNode :=
  SimplifiedNode.mk "1297:1604" "hero" "FRAME" none none none none none none none
    none none none none none none

/-- Concrete emitted node carrying the external dash-delimited id. -/
def snDash : SimplifiedNode :=
  SimplifiedNode.mk "1297-1604" "hero" "FRAME" none none none none none none none
    none none none none none none

/-- Counterexample to C6 as stated: the repository's own boundary consumer
(the test's target lookup over the emitted tree) finds an output node
exactly when its id is the colon-delimited form and misses a node whose id
is the dash-delimited external form, so the emitted ids at the boundary
are colon-delimited, and the colon form does appear across the boundary. -/
theorem C6_counterexample_colon_ids_at_boundary :
    testTargetLookup [snColon] "1297-1604" = some snColon ∧
    testTargetLookup [snDash] "1297-1604" = none ∧
    ':' ∈ snColon.id.data := by
  refine ⟨?_, ?_, by decide⟩
  · unfold testTargetLookup
    simp only [snColon, findAllNodes]
    rw [List.find?_cons_of_pos _ (by decide)]
  · unfold testTargetLookup
    simp only [snDash, findAllNodes]
    rw [List.find?_cons_of_neg _ (by decide)]
    rfl

/-- C6 as amended: the core accepts target ids in external dash-delimited
form and normalizes them to the internal colon form, which is dash-free;
emitted SimplifiedNode ids stay in the raw colon-delimited form, and the
repository's own consumer locates an output node by converting the dash
form to the colon form before comparing. -/
theorem C6_boundary_accepts_dash_emits_colon (figmaNodeId : String) (n : SimplifiedNode)
    (h : n.id = dashToColon figmaNodeId) :
    testTargetLookup [n] figmaNodeId = some n ∧
    ∀ c ∈ (dashToColon figmaNodeId).data, c ≠ '-' := by
  constructor
  · obtain ⟨i, nm, ty, tx, ts, fi, sy, sk, ef, op, br, ly, sp, ci, cp, ch⟩ := n
    unfold testTargetLookup
    cases ch with
    | none =>
      simp only [findAllNodes]
      rw [List.find?_cons_of_pos _ (by simpa [SimplifiedNode.id] using h)]
    | some cs =>
      simp only [findAllNodes]
      rw [List.find?_cons_of_pos _ (by simpa [SimplifiedNode.id] using h)]
  · intro c hc
    unfold dashToColon at hc
    simp only [List.mem_map] at hc
    obtain ⟨x, _, hx⟩ := hc
    by_cases hxd : x = '-'
    · rw [if_pos hxd] at hx
      rw [← hx]
      decide
    · rw [if_neg hxd] at hx
      rw [← hx]
      exact hxd

/-- Witness for the amended C6 at a concrete id. -/
theorem C6_boundary_accepts_dash_emits_colon_witness :
    snColon.id = dashToColon "1297-1604" ∧
    (testTargetLookup [snColon] "1297-1604" = some snColon ∧
     ∀ c ∈ (dashToColon "1297-1604").data, c ≠ '-') :=
  ⟨by decide, C6_boundary_accepts_dash_emits_colon "1297-1604" snColon (by decide)⟩

/-- Style metadata entry of the file-scoped styles dictionary
(`stylesMetadata[styleId]` with its styleType and name). -/
structure StyleMeta where
  styleType : String
  name : Option String

/-- GridInfo record (global-styles.ts lines 7-14). -/
structure GridInfo where
  sectionSize : Option Rat
  gutterSize : Option Rat
  alignment : Option String
  margin : Option Rat
  count : Option Rat
  pattern : String

/-- Value with a PIXELS or PERCENT unit (lineHeight and letterSpacing of
FontStyle, global-styles.ts lines 21-28). -/
structure UnitValue where
  value : Rat
  unit : String

/-- FontStyle record (global-styles.ts lines 16-32). -/
structure FontStyle where
  name : String
  fontFamily : String
  fontStyle : String
  fontSize : Rat
  lineHeight : Option UnitValue
  letterSpacing : Option UnitValue
  paragraphSpacing : Option Rat
  textCase : Option String
  textDecoration : Option String

/-- ColorStyle record (global-styles.ts lines 34-39); every constructed
entry carries an opacity. -/
structure ColorStyle where
  name : String
  hex : String
  opacity : Rat
  colorType : String

/-- GlobalStyles aggregate (global-styles.ts lines 41-45); the gridSystems
record is an association list in insertion order. -/
structure GlobalStyles where
  gridSystems : List (String × List GridInfo)
  fontStyles : List FontStyle
  colors : List ColorStyle

/-- JavaScript `metadata.name || styleId`: the name unless it is absent or
the empty string (both falsy). -/
def metaDisplayName (md : StyleMeta) (styleId : String) : String :=
  match md.name with
  | some s => if s = "" then styleId else s
  | none => styleId

/-- JavaScript `x || d` on an optional string. -/
def orDefaultStr (v : Option String) (d : String) : String :=
  match v with
  | some s => if s = "" then d else s
  | none => d

/-- JavaScript `x || d` on an optional number (zero is falsy). -/
def orDefaultRat (v : Option Rat) (d : Rat) : Rat :=
  match v with
  | some x => if x = 0 then d else x
  | none => d

/-- JavaScript object key assignment `record[k] = v`: update the existing
key in place or append it. -/
def recordSet (l : List (String × List GridInfo)) (k : String) (v : List GridInfo) :
    List (String × List GridInfo) :=
  if l.any (fun p => p.1 == k) then
    l.map (fun p => if p.1 == k then (k, v) else p)
  else l ++ [(k, v)]

/-- JavaScript object lookup `styleNodes[styleId]` on the accumulated
batch results, where later `Object.assign` calls override earlier keys:
the last binding wins. -/
def objLookup (l : List (String × NodeWrapper)) (k : String) : Option NodeWrapper :=
  ((l.filter (fun p => p.1 == k)).getLast?).map (fun p => p.2)

/-- Hexadecimal digit character, lowercase as JavaScript toString(16). -/
def hexDigitChar : Nat → Char
  | 0 => '0'
  | 1 => '1'
  | 2 => '2'
  | 3 => '3'
  | 4 => '4'
  | 5 => '5'
  | 6 => '6'
  | 7 => '7'
  | 8 => '8'
  | 9 => '9'
  | 10 => 'a'
  | 11 => 'b'
  | 12 => 'c'
  | 13 => 'd'
  | 14 => 'e'
  | _ => 'f'

/-- Hexadecimal digit list of a positive number; fuel-structural. -/
def natHexDigitsAux : Nat → Nat → List Char
  | _, 0 => []
  | 0, _ + 1 => []
  | fuel + 1, n + 1 => natHexDigitsAux fuel ((n + 1) / 16) ++ [hexDigitChar ((n + 1) % 16)]

/-- Hexadecimal string of a natural number. -/
def natToHexStr (n : Nat) : String :=
  if n = 0 then "0" else String.mk (natHexDigitsAux n n)

/-- JavaScript `Number.prototype.toString(16)` on an integer. -/
def intToHexStr (i : Int) : String :=
  if i < 0 then "-" ++ natToHexStr i.natAbs else natToHexStr i.toNat

/-- Translation of the channel conversion inside `rgbToHex`
(global-styles.ts lines 55-60): round the 0-1 channel to 0-255, render in
hexadecimal, pad to two digits. -/
def toHexChannel (n : Rat) : String :=
  if (intToHexStr (round (n * 255))).length = 1 then
    "0" ++ intToHexStr (round (n * 255))
  else intToHexStr (round (n * 255))

/-- Translation of `rgbToHex` (global-styles.ts lines 52-61). -/
def rgbToHex (r g b : Rat) : String :=
  "#" ++ toHexChannel r ++ toHexChannel g ++ toHexChannel b

/-- Translation of `extractGridSystemsFromNodes` (global-styles.ts lines
63-97): for each GRID-typed style id whose fetched node carries layout
grids, keep the COLUMNS-pattern ones (if any) under the display name. -/
def extractGridSystemsFromNodes (styleNodes : List (String × NodeWrapper))
    (stylesMetadata : List (String × StyleMeta)) : List (String × List GridInfo) :=
  stylesMetadata.foldl (fun gridSystems p =>
    if p.2.styleType = "GRID" then
      match objLookup styleNodes p.1 with
      | some w =>
        match w.document with
        | some doc =>
          match doc.layoutGrids with
          | some grids =>
            if (grids.filter (fun g => g.pattern == "COLUMNS")).length > 0 then
              recordSet gridSystems (metaDisplayName p.2 p.1)
                ((grids.filter (fun g => g.pattern == "COLUMNS")).map (fun g =>
                  { sectionSize := g.sectionSize, gutterSize := g.gutterSize,
                    alignment := g.alignment, margin := g.offset, count := g.count,
                    pattern := g.pattern }))
            else gridSystems
          | none => gridSystems
        | none => gridSystems
      | none => gridSystems
    else gridSystems) []

/-- Translation of `extractFontStylesFromNodes` (global-styles.ts lines
99-159); `hasValue` (src/utils/identity.ts, missing from src/) checks that
a property is present and is embedded as Option.isSome. -/
def extractFontStylesFromNodes (styleNodes : List (String × NodeWrapper))
    (stylesMetadata : List (String × StyleMeta)) : List FontStyle :=
  stylesMetadata.foldl (fun fontStyles p =>
    if p.2.styleType = "TEXT" then
      match objLookup styleNodes p.1 with
      | some w =>
        match w.document with
        | some doc =>
          match doc.style with
          | some styleData =>
            fontStyles ++
              [{ name := metaDisplayName p.2 p.1,
                 fontFamily := orDefaultStr styleData.fontFamily "Unknown",
                 fontStyle := orDefaultStr styleData.fontPostScriptName "Regular",
                 fontSize := orDefaultRat styleData.fontSize 16,
                 lineHeight :=
                   match styleData.lineHeightPx with
                   | some v => some ⟨v, "PIXELS"⟩
                   | none =>
                     match styleData.lineHeightPercent with
                     | some v => some ⟨v, "PERCENT"⟩
                     | none => none,
                 letterSpacing :=
                   match styleData.letterSpacing with
                   | some v => some ⟨v, "PIXELS"⟩
                   | none => none,
                 paragraphSpacing := styleData.paragraphSpacing,
                 textCase := styleData.textCase,
                 textDecoration := styleData.textDecoration }]
          | none => fontStyles
        | none => fontStyles
      | none => fontStyles
    else fontStyles) []

/-- Translation of `extractColorsFromNodes` (global-styles.ts lines
161-211): for each FILL-typed style id whose fetched node has a nonempty
fills array, classify the first fill. -/
def extractColorsFromNodes (styleNodes : List (String × NodeWrapper))
    (stylesMetadata : List (String × StyleMeta)) : List ColorStyle :=
  stylesMetadata.foldl (fun colors p =>
    if p.2.styleType = "FILL" then
      match objLookup styleNodes p.1 with
      | some w =>
        match w.document with
        | some doc =>
          match doc.fills with
          | some (fill :: _) =>
            if fill.fillType = "SOLID" then
              match fill.color with
              | some c =>
                colors ++
                  [{ name := metaDisplayName p.2 p.1,
                     hex := rgbToHex c.r c.g c.b,
                     opacity := match fill.opacity with | some o => o | none => 1,
                     colorType := "SOLID" }]
              | none => colors
            else if fill.fillType = "GRADIENT_LINEAR" ∨
                fill.fillType = "GRADIENT_RADIAL" then
              match fill.gradientStops with
              | some (stop :: _) =>
                colors ++
                  [{ name := metaDisplayName p.2 p.1,
                     hex := rgbToHex stop.color.r stop.color.g stop.color.b,
                     opacity := match stop.color.a with | some a => a | none => 1,
                     colorType := "GRADIENT" }]
              | _ => colors
            else if fill.fillType = "IMAGE" then
              colors ++
                [{ name := metaDisplayName p.2 p.1,
                   hex := "#000000",
                   opacity := match fill.opacity with | some o => o | none => 1,
                   colorType := "IMAGE" }]
            else colors
          | _ => colors
        | none => colors
      | none => colors
    else colors) []

/-- JavaScript `array.join(",")`. -/
def joinComma : List String → String
  | [] => ""
  | [s] => s
  | s :: rest => s ++ "," ++ joinComma rest

/-- Translation of the batched style-node fetch loop of
`extractGlobalStyles` (global-styles.ts lines 233-249): slice the ids into
sequential batches of 50, fetch each batch joined by commas, accumulate
the returned nodes in order (a later batch overrides an earlier key on
lookup, as Object.assign does), log and skip a failed batch.  The second
component records the issued batch requests. -/
def fetchStyleNodes (figmaService : FigmaServiceT) (fileKey : String) :
    List String → List (String × NodeWrapper) × List String
  | [] => ([], [])
  | i :: ids =>
    ((match figmaService.getRawNode fileKey (joinComma ((i :: ids).take 50)) with
      | Except.ok r => r.nodes
      | Except.error _ => []) ++
        (fetchStyleNodes figmaService fileKey ((i :: ids).drop 50)).1,
     joinComma ((i :: ids).take 50) ::
        (fetchStyleNodes figmaService fileKey ((i :: ids).drop 50)).2)
termination_by ids => ids.length
decreasing_by all_goals (simp [List.length_drop]; omega)

/-- Translation of `extractGlobalStyles` (global-styles.ts lines 217-257):
return empty collections immediately when the styles metadata is absent or
empty, otherwise fetch the style nodes in batches of 50 and extract grid
systems, font styles and colors from the fetched node data.  The second
component records the remote requests issued. -/
def extractGlobalStyles (figmaService : FigmaServiceT) (fileKey : String)
    (stylesMetadata : Option (List (String × StyleMeta))) :
    GlobalStyles × List String :=
  match stylesMetadata with
  | none => (⟨[], [], []⟩, [])
  | some meta =>
    if meta.isEmpty then (⟨[], [], []⟩, [])
    else
      (⟨extractGridSystemsFromNodes
          (fetchStyleNodes figmaService fileKey (meta.map (fun p => p.1))).1 meta,
        extractFontStylesFromNodes
          (fetchStyleNodes figmaService fileKey (meta.map (fun p => p.1))).1 meta,
        extractColorsFromNodes
          (fetchStyleNodes figmaService fileKey (meta.map (fun p => p.1))).1 meta⟩,
       (fetchStyleNodes figmaService fileKey (meta.map (fun p => p.1))).2)

theorem fetchStyleNodes_chunk (svc : FigmaServiceT) (fileKey : String)
    (b r : List String) (hb : b ≠ []) (hlen : b.length = 50) :
    fetchStyleNodes svc fileKey (b ++ r)
      = ((match svc.getRawNode fileKey (joinComma b) with
          | Except.ok resp => resp.nodes
          | Except.error _ => []) ++ (fetchStyleNodes svc fileKey r).1,
         joinComma b :: (fetchStyleNodes svc fileKey r).2) := by
  cases b with
  | nil => exact absurd rfl hb
  | cons a b' =>
    rw [List.cons_append, fetchStyleNodes, ← List.cons_append]
    rw [show ((a :: b') ++ r).take 50 = a :: b' from by
      rw [← hlen]; exact List.take_left _ _]
    rw [show ((a :: b') ++ r).drop 50 = r from by
      rw [← hlen]; exact List.drop_left _ _]

theorem fetchStyleNodes_last (svc : FigmaServiceT) (fileKey : String)
    (b : List String) (hb : b ≠ []) (hlen : b.length ≤ 50) :
    fetchStyleNodes svc fileKey b
      = ((match svc.getRawNode fileKey (joinComma b) with
          | Except.ok resp => resp.nodes
          | Except.error _ => []) ++ [],
         [joinComma b]) := by
  cases b with
  | nil => exact absurd rfl hb
  | cons a b' =>
    rw [fetchStyleNodes]
    rw [List.take_of_length_le hlen, List.drop_eq_nil_of_le hlen]
    rw [fetchStyleNodes]

/-- C7: over 120 style ids, the batched style-node fetch issues exactly the
three sequential batches of 50, 50 and 20 ids; if the second batch's fetch
throws, its error is absorbed and its ids contribute nothing, while the
first and third batches' nodes all feed the final style collection, and the
whole extraction returns normally (the embedding is a total function). -/
theorem C7_extractGlobalStyles_batching
    (svc : FigmaServiceT) (fileKey : String) (meta : List (String × StyleMeta))
    (c1 c2 c3 : List String) (r1 r3 : NodesResponse) (e : String)
    (hids : meta.map (fun p => p.1) = c1 ++ c2 ++ c3)
    (h1 : c1.length = 50) (h2 : c2.length = 50) (h3 : c3.length = 20)
    (hok1 : svc.getRawNode fileKey (joinComma c1) = Except.ok r1)
    (herr2 : svc.getRawNode fileKey (joinComma c2) = Except.error e)
    (hok3 : svc.getRawNode fileKey (joinComma c3) = Except.ok r3) :
    extractGlobalStyles svc fileKey (some meta)
      = (⟨extractGridSystemsFromNodes (r1.nodes ++ r3.nodes) meta,
          extractFontStylesFromNodes (r1.nodes ++ r3.nodes) meta,
          extractColorsFromNodes (r1.nodes ++ r3.nodes) meta⟩,
         [joinComma c1, joinComma c2, joinComma c3]) := by
  have hmetane : meta.isEmpty = false := by
    have hlen := congrArg List.length hids
    simp only [List.length_map, List.length_append, h1, h2, h3] at hlen
    cases hm : meta with
    | nil => rw [hm] at hlen; simp at hlen
    | cons x xs => rfl
  have hfetch : fetchStyleNodes svc fileKey (meta.map (fun p => p.1))
      = (r1.nodes ++ r3.nodes, [joinComma c1, joinComma c2, joinComma c3]) := by
    rw [hids, List.append_assoc]
    rw [fetchStyleNodes_chunk svc fileKey c1 (c2 ++ c3)
      (by intro hc; rw [hc] at h1; simp at h1) h1]
    rw [fetchStyleNodes_chunk svc fileKey c2 c3
      (by intro hc; rw [hc] at h2; simp at h2) h2]
    rw [fetchStyleNodes_last svc fileKey c3
      (by intro hc; rw [hc] at h3; simp at h3) (by omega)]
    rw [hok1, herr2, hok3]
    simp
  simp only [extractGlobalStyles, hmetane, Bool.false_eq_true, if_false, hfetch]

/-- Concrete 120 style ids for the C7 witness. -/
def idList120 : List String := (List.range 120).map (fun i => natRepr i)

/-- Concrete style metadata over the 120 ids. -/
def meta120 : List (String × StyleMeta) :=
  idList120.map (fun i => (i, ⟨"GRID", none⟩))

/-- Concrete service failing exactly on the second batch. -/
def svcBatch : FigmaServiceT :=
  ⟨fun _ => Except.error "offline",
   fun _ ids =>
     if ids = joinComma ((idList120.drop 50).take 50) then Except.error "boom"
     else Except.ok ⟨[]⟩⟩

/-- Witness for C7 at 120 concrete ids with the second batch failing. -/
theorem C7_extractGlobalStyles_batching_witness :
    meta120.map (fun p => p.1)
        = idList120.take 50 ++ (idList120.drop 50).take 50 ++ (idList120.drop 100) ∧
    (idList120.take 50).length = 50 ∧
    ((idList120.drop 50).take 50).length = 50 ∧
    (idList120.drop 100).length = 20 ∧
    svcBatch.getRawNode "key" (joinComma (idList120.take 50)) = Except.ok ⟨[]⟩ ∧
    svcBatch.getRawNode "key" (joinComma ((idList120.drop 50).take 50))
      = Except.error "boom" ∧
    svcBatch.getRawNode "key" (joinComma (idList120.drop 100)) = Except.ok ⟨[]⟩ ∧
    extractGlobalStyles svcBatch "key" (some meta120)
      = (⟨extractGridSystemsFromNodes ((⟨[]⟩ : NodesResponse).nodes
            ++ (⟨[]⟩ : NodesResponse).nodes) meta120,
          extractFontStylesFromNodes ((⟨[]⟩ : NodesResponse).nodes
            ++ (⟨[]⟩ : NodesResponse).nodes) meta120,
          extractColorsFromNodes ((⟨[]⟩ : NodesResponse).nodes
            ++ (⟨[]⟩ : NodesResponse).nodes) meta120⟩,
         [joinComma (idList120.take 50), joinComma ((idList120.drop 50).take 50),
          joinComma (idList120.drop 100)]) := by
  have hsplit : meta120.map (fun p => p.1)
      = idList120.take 50 ++ (idList120.drop 50).take 50 ++ (idList120.drop 100) := by
    decide
  have hl1 : (idList120.take 50).length = 50 := by decide
  have hl2 : ((idList120.drop 50).take 50).length = 50 := by decide
  have hl3 : (idList120.drop 100).length = 20 := by decide
  have hok1 : svcBatch.getRawNode "key" (joinComma (idList120.take 50))
      = Except.ok ⟨[]⟩ := by
    show (if joinComma (idList120.take 50)
        = joinComma ((idList120.drop 50).take 50) then Except.error "boom"
      else Except.ok (⟨[]⟩ : NodesResponse)) = Except.ok (⟨[]⟩ : NodesResponse)
    rw [if_neg (by decide)]
  have herr2 : svcBatch.getRawNode "key" (joinComma ((idList120.drop 50).take 50))
      = Except.error "boom" := by
    show (if joinComma ((idList120.drop 50).take 50)
        = joinComma ((idList120.drop 50).take 50) then Except.error "boom"
      else Except.ok (⟨[]⟩ : NodesResponse)) = Except.error "boom"
    rw [if_pos rfl]
  have hok3 : svcBatch.getRawNode "key" (joinComma (idList120.drop 100))
      = Except.ok ⟨[]⟩ := by
    show (if joinComma (idList120.drop 100)
        = joinComma ((idList120.drop 50).take 50) then Except.error "boom"
      else Except.ok (⟨[]⟩ : NodesResponse)) = Except.ok (⟨[]⟩ : NodesResponse)
    rw [if_neg (by decide)]
  exact ⟨hsplit, hl1, hl2, hl3, hok1, herr2, hok3,
    C7_extractGlobalStyles_batching svcBatch "key" meta120 _ _ _ ⟨[]⟩ ⟨[]⟩ "boom"
      hsplit hl1 hl2 hl3 hok1 herr2 hok3⟩

/-- C10: with the styles metadata absent or empty, extractGlobalStyles
returns the empty collections immediately and issues no remote request. -/
theorem C10_extractGlobalStyles_empty_no_fetch
    (svc : FigmaServiceT) (fileKey : String)
    (stylesMetadata : Option (List (String × StyleMeta)))
    (h : stylesMetadata = none ∨ stylesMetadata = some []) :
    extractGlobalStyles svc fileKey stylesMetadata = (⟨[], [], []⟩, []) := by
  rcases h with rfl | rfl
  · rfl
  · rfl

/-- Witness for C10 at both an absent and an empty metadata argument. -/
theorem C10_extractGlobalStyles_empty_no_fetch_witness :
    ((none : Option (List (String × StyleMeta))) = none ∨
      (none : Option (List (String × StyleMeta))) = some []) ∧
    extractGlobalStyles svcDummy "key" none = (⟨[], [], []⟩, []) ∧
    extractGlobalStyles svcDummy "key" (some []) = (⟨[], [], []⟩, []) :=
  ⟨Or.inl rfl,
   C10_extractGlobalStyles_empty_no_fetch svcDummy "key" none (Or.inl rfl),
   C10_extractGlobalStyles_empty_no_fetch svcDummy "key" (some []) (Or.inr rfl)⟩
